import Mathlib

/-
Shallow embedding of the inventory management system.

The repository contains two near-duplicate programs:
  impl A = src/inventory_management_system/inventory_management.py
  impl B = src/inventory_management_system/inventory_management_system/inventory.py
Product-level code (restock / sell / get_total_value) and the duplicate-id
check of add_product are textually identical in both files, so they are
embedded once; operations whose code differs between the two files carry an
A or B suffix.

Modelling conventions:
  - Python dicts are insertion-ordered association lists `List (String × α)`;
    indexing, assignment and deletion are `lookupKey`, `setKey`, `eraseKey`.
  - Python ints are `Int`, Python floats (prices) are exact rationals `ℚ`.
  - A `datetime` value is a calendar date plus a time of day; `strptime`
    with format "%Y-%m-%d" yields the date at midnight.
  - JSON scalar values are `JVal`; the constructor `JVal.date d` stands for
    the string `strftime("%Y-%m-%d")` of `d`, so extraction of a date models
    `strptime` on such a string (any other value fails, as `strptime` does).
  - Mutation is explicit state passing; raising an exception is returning
    `Except.error` carrying the error kind of the spec's taxonomy
    (impl B raises `ValueError`s whose kinds are the same four).
  - Value extraction from JSON records is type-checked at extraction; the
    source stores the values untyped, and every value that reaches a field
    in these developments is well-typed.
-/

set_option autoImplicit false

namespace IMS

/-- A calendar date, as carried by a Python `datetime`. -/
structure Date where
  year : Nat
  month : Nat
  day : Nat
deriving DecidableEq, Repr

/-- A Python `datetime` value: calendar date plus time of day.
`datetime.strptime(s, "%Y-%m-%d")` produces the date at midnight. -/
structure DateTime where
  date : Date
  hour : Nat
  minute : Nat
  second : Nat
deriving DecidableEq, Repr

/-- Lexicographic strict order on dates, mirroring Python date comparison. -/
def Date.ltb (a b : Date) : Bool :=
  a.year < b.year ||
    (a.year == b.year && (a.month < b.month ||
      (a.month == b.month && a.day < b.day)))

/-- Lexicographic strict order on datetimes, mirroring Python `<`. -/
def DateTime.ltb (a b : DateTime) : Bool :=
  Date.ltb a.date b.date ||
    (a.date == b.date && (a.hour < b.hour ||
      (a.hour == b.hour && (a.minute < b.minute ||
        (a.minute == b.minute && a.second < b.second)))))

/-- The datetime `strptime(s, "%Y-%m-%d")` returns: the date at midnight. -/
def DateTime.atMidnight (d : Date) : DateTime :=
  ⟨d, 0, 0, 0⟩

/-- Variant-specific fields of the three `Product` subclasses. -/
inductive ProductData where
  | electronics (warranty_years : Int) (brand : String)
  | grocery (expiry_date : DateTime)
  | clothing (size : String) (material : String)
deriving DecidableEq, Repr

/-- A product record: the common fields of the abstract `Product` class plus
the variant-specific fields of its concrete subclass. -/
structure Product where
  product_id : String
  name : String
  price : ℚ
  quantity_in_stock : Int
  data : ProductData
deriving DecidableEq, Repr

/-- The error kinds of the spec's taxonomy.  Impl A raises the dedicated
exception classes; impl B raises `ValueError`s of the same four kinds. -/
inductive InvErr where
  | DuplicateProductID
  | InsufficientStock
  | InvalidProductData
  | ProductNotFound
deriving DecidableEq, Repr

/-- `Product.restock` (identical in both files):
`self._quantity_in_stock += amount`. -/
def Product.restock (p : Product) (amount : Int) : Product :=
  { p with quantity_in_stock := p.quantity_in_stock + amount }

/-- `Product.sell` (identical logic in both files): raise insufficient-stock
when `quantity > self._quantity_in_stock`, else decrement. -/
def Product.sell (p : Product) (quantity : Int) : Except InvErr Product :=
  if quantity > p.quantity_in_stock then .error .InsufficientStock
  else .ok { p with quantity_in_stock := p.quantity_in_stock - quantity }

/-- `Product.get_total_value` (identical in both files):
`self._price * self._quantity_in_stock`. -/
def Product.get_total_value (p : Product) : ℚ :=
  p.price * (p.quantity_in_stock : ℚ)

/-- `type(product).__name__` / `p.__class__.__name__`. -/
def Product.className (p : Product) : String :=
  match p.data with
  | .electronics _ _ => "Electronics"
  | .grocery _ => "Grocery"
  | .clothing _ _ => "Clothing"

/-- `Grocery.is_expired`: `datetime.now() > self.expiry_date`, taking the
current datetime as an explicit argument.  The source defines the method on
`Grocery` only and always guards calls with `isinstance(p, Grocery)`;
the non-grocery branch here is that unreachable case. -/
def Product.is_expired (p : Product) (now : DateTime) : Bool :=
  match p.data with
  | .grocery e => DateTime.ltb e now
  | _ => false

/-- A product is constructor-built: `Grocery.__init__` parses the expiry
string with `strptime("%Y-%m-%d")`, so its stored datetime is at midnight. -/
def Product.wf (p : Product) : Bool :=
  match p.data with
  | .grocery e => e.hour == 0 && e.minute == 0 && e.second == 0
  | _ => true

/-- `self._products`: a Python dict from product id to product,
modelled as an insertion-ordered association list. -/
abbrev Inventory := List (String × Product)

/-- Dict indexing `d[k]` / membership basis: first (and in a real dict only)
binding of the key. -/
def lookupKey {α : Type} : List (String × α) → String → Option α
  | [], _ => none
  | (k, v) :: rest, key => if k == key then some v else lookupKey rest key

/-- Dict membership test `k in d`. -/
def hasKey {α : Type} (l : List (String × α)) (key : String) : Bool :=
  (lookupKey l key).isSome

/-- Dict assignment `d[k] = v`: replace in place when the key is bound,
append otherwise. -/
def setKey {α : Type} : List (String × α) → String → α → List (String × α)
  | [], key, v => [(key, v)]
  | (k, w) :: rest, key, v =>
    if k == key then (k, v) :: rest else (k, w) :: setKey rest key v

/-- Dict deletion `del d[k]` / `d.pop(k, None)`: drop the binding when
present, no-op otherwise. -/
def eraseKey {α : Type} : List (String × α) → String → List (String × α)
  | [], _ => []
  | (k, w) :: rest, key =>
    if k == key then rest else (k, w) :: eraseKey rest key

/-- `Inventory.add_product` (identical in both files): duplicate id raises,
otherwise `self._products[product._product_id] = product`. -/
def add_product (inv : Inventory) (product : Product) : Except InvErr Inventory :=
  if hasKey inv product.product_id then .error .DuplicateProductID
  else .ok (setKey inv product.product_id product)

/-- `Inventory.remove_product`: impl A does `pop(product_id, None)`,
impl B does `if product_id in self._products: del ...` — the same state
transition, a no-op on an absent id. -/
def remove_product (inv : Inventory) (product_id : String) : Inventory :=
  eraseKey inv product_id

/-- `Inventory.list_all_products` (identical in both files):
`list(self._products.values())`. -/
def list_all_products (inv : Inventory) : List Product :=
  inv.map Prod.snd

/-- The Python classes usable as impl A's `search_by_type` argument:
the three product classes, or any class no product is an instance of
(collapsed into `other`). -/
inductive PyClass where
  | electronics
  | grocery
  | clothing
  | other
deriving DecidableEq, Repr

/-- `isinstance(p, c)` for a product `p` and a class `c`. -/
def Product.isinstance (p : Product) (c : PyClass) : Bool :=
  match p.data, c with
  | .electronics _ _, .electronics => true
  | .grocery _, .grocery => true
  | .clothing _ _, .clothing => true
  | _, _ => false

/-- Impl A `Inventory.search_by_type`:
`[p for p in self._products.values() if isinstance(p, product_type)]`. -/
def search_by_typeA (inv : Inventory) (product_type : PyClass) : List Product :=
  (list_all_products inv).filter (fun p => p.isinstance product_type)

/-- `str.lower()` on one character; ASCII case mapping, which coincides with
Python's on every string this program compares. -/
def lowerChar (c : Char) : Char :=
  if 65 ≤ c.toNat && c.toNat ≤ 90 then Char.ofNat (c.toNat + 32) else c

/-- `str.lower()`. -/
def lower (s : String) : String :=
  ⟨s.data.map lowerChar⟩

/-- Impl B `Inventory.search_by_type`:
`[p for p in values if p.__class__.__name__.lower() == product_type.lower()]`. -/
def search_by_typeB (inv : Inventory) (product_type : String) : List Product :=
  (list_all_products inv).filter
    (fun p => lower p.className == lower product_type)

/-- Impl A `Inventory.sell_product`: `if product_id in self._products:`
delegate to `sell`, silently do nothing on an absent id. -/
def sell_productA (inv : Inventory) (product_id : String) (quantity : Int) :
    Except InvErr Inventory :=
  match lookupKey inv product_id with
  | none => .ok inv
  | some p =>
    match p.sell quantity with
    | .error e => .error e
    | .ok p2 => .ok (setKey inv product_id p2)

/-- Impl A `Inventory.restock_product`: `if product_id in self._products:`
delegate to `restock`, silently do nothing on an absent id; never fails. -/
def restock_productA (inv : Inventory) (product_id : String) (quantity : Int) :
    Inventory :=
  match lookupKey inv product_id with
  | none => inv
  | some p => setKey inv product_id (p.restock quantity)

/-- Impl B `Inventory.sell_product`: raise product-not-found on an absent id,
else delegate to `sell`. -/
def sell_productB (inv : Inventory) (product_id : String) (quantity : Int) :
    Except InvErr Inventory :=
  match lookupKey inv product_id with
  | none => .error .ProductNotFound
  | some p =>
    match p.sell quantity with
    | .error e => .error e
    | .ok p2 => .ok (setKey inv product_id p2)

/-- Impl B `Inventory.restock_product`: raise product-not-found on an absent
id, else delegate to `restock`. -/
def restock_productB (inv : Inventory) (product_id : String) (quantity : Int) :
    Except InvErr Inventory :=
  match lookupKey inv product_id with
  | none => .error .ProductNotFound
  | some p => .ok (setKey inv product_id (p.restock quantity))

/-- `Inventory.total_inventory_value` (identical in both files):
`sum(p.get_total_value() for p in self._products.values())`. -/
def total_inventory_value (inv : Inventory) : ℚ :=
  ((list_all_products inv).map Product.get_total_value).sum

/-- The `expired_ids` list of `remove_expired_products` (identical in both
files): ids of entries that are `Grocery` instances and are expired. -/
def expiredIds (inv : Inventory) (now : DateTime) : List String :=
  (inv.filter (fun e => e.2.isinstance .grocery && e.2.is_expired now)).map Prod.fst

/-- `Inventory.remove_expired_products` (identical in both files): collect
`expired_ids`, then `del self._products[pid]` for each.  The second
component is the Python return value, which is `None`. -/
def remove_expired_products (inv : Inventory) (now : DateTime) :
    Inventory × Unit :=
  ((expiredIds inv now).foldl (fun acc pid => eraseKey acc pid) inv, ())

/-- JSON scalar values appearing in the persisted records.  `date d` stands
for the string `d.strftime("%Y-%m-%d")`; `int` and `num` are JSON numbers
decoded to Python int and float respectively. -/
inductive JVal where
  | s (v : String)
  | int (v : Int)
  | num (v : ℚ)
  | date (v : Date)
deriving DecidableEq, Repr

/-- A JSON object holding one serialized product: a Python dict from field
name to value. -/
abbrev Item := List (String × JVal)

/-- Read a string field; anything else is a type failure. -/
def Item.getStr (it : Item) (k : String) : Option String :=
  match lookupKey it k with
  | some (.s v) => some v
  | _ => none

/-- Read an integer field; anything else is a type failure. -/
def Item.getInt (it : Item) (k : String) : Option Int :=
  match lookupKey it k with
  | some (.int v) => some v
  | _ => none

/-- Read a numeric field (Python accepts int or float here). -/
def Item.getNum (it : Item) (k : String) : Option ℚ :=
  match lookupKey it k with
  | some (.num v) => some v
  | some (.int v) => some (v : ℚ)
  | _ => none

/-- Read a date field: models `strptime(value, "%Y-%m-%d")`, which fails on
anything but a well-formed date string. -/
def Item.getDate (it : Item) (k : String) : Option Date :=
  match lookupKey it k with
  | some (.date v) => some v
  | _ => none

/-- Impl A `Inventory.serialize_product`: explicit base fields plus the
variant-specific fields selected by `isinstance`. -/
def serialize_product (p : Product) : Item :=
  [("type", .s p.className),
   ("product_id", .s p.product_id),
   ("name", .s p.name),
   ("price", .num p.price),
   ("quantity_in_stock", .int p.quantity_in_stock)] ++
  match p.data with
  | .electronics wy br => [("warranty_years", .int wy), ("brand", .s br)]
  | .grocery e => [("expiry_date", .date e.date)]
  | .clothing sz mat => [("size", .s sz), ("material", .s mat)]

/-- Impl A `Inventory.deserialize_product`: dispatch on `data["type"]`,
index the required fields (a missing field is a `KeyError`, wrapped by
`load_from_file` into the invalid-data error), unknown type raises. -/
def deserialize_product (d : Item) : Except InvErr Product :=
  match d.getStr "type" with
  | none => .error .InvalidProductData
  | some t =>
    if t == "Electronics" then
      match d.getStr "product_id", d.getStr "name", d.getNum "price",
            d.getInt "quantity_in_stock", d.getInt "warranty_years",
            d.getStr "brand" with
      | some pid, some nm, some pr, some qty, some wy, some br =>
        .ok ⟨pid, nm, pr, qty, .electronics wy br⟩
      | _, _, _, _, _, _ => .error .InvalidProductData
    else if t == "Grocery" then
      match d.getStr "product_id", d.getStr "name", d.getNum "price",
            d.getInt "quantity_in_stock", d.getDate "expiry_date" with
      | some pid, some nm, some pr, some qty, some ed =>
        .ok ⟨pid, nm, pr, qty, .grocery (DateTime.atMidnight ed)⟩
      | _, _, _, _, _ => .error .InvalidProductData
    else if t == "Clothing" then
      match d.getStr "product_id", d.getStr "name", d.getNum "price",
            d.getInt "quantity_in_stock", d.getStr "size",
            d.getStr "material" with
      | some pid, some nm, some pr, some qty, some sz, some mat =>
        .ok ⟨pid, nm, pr, qty, .clothing sz mat⟩
      | _, _, _, _, _, _ => .error .InvalidProductData
    else .error .InvalidProductData

/-- Impl A `Inventory.save_to_file`: the file holds the id-keyed mapping
`{pid: serialize_product(p) for pid, p in self._products.items()}`. -/
def save_to_fileA (inv : Inventory) : List (String × Item) :=
  inv.map (fun e => (e.1, serialize_product e.2))

/-- The evaluation of impl A's load comprehension
`{pid: deserialize_product(info) for pid, info in data.items()}`:
left to right, stopping at the first raised exception. -/
def deserializeEntriesA : List (String × Item) → Except InvErr (List (String × Product))
  | [] => .ok []
  | (pid, it) :: rest =>
    match deserialize_product it with
    | .error _ => .error .InvalidProductData
    | .ok p =>
      match deserializeEntriesA rest with
      | .error e => .error e
      | .ok l => .ok ((pid, p) :: l)

/-- Impl A `Inventory.load_from_file`: evaluate the dict comprehension fully,
then assign it to `self._products`; any exception is wrapped into the
invalid-data error and `self._products` is never assigned (so the caller's
prior state is preserved on failure). -/
def load_from_fileA (data : List (String × Item)) : Except InvErr Inventory :=
  match deserializeEntriesA data with
  | .error e => .error e
  | .ok l => .ok (l.foldl (fun acc e => setKey acc e.1 e.2) [])

/-- Impl B `save_to_file`'s per-product record: `p.__dict__.copy()` (the
attribute names, underscores included, in assignment order), the grocery
expiry replaced in place by its date string, and `"type"` appended. -/
def serialize_itemB (p : Product) : Item :=
  [("_product_id", .s p.product_id),
   ("_name", .s p.name),
   ("_price", .num p.price),
   ("_quantity_in_stock", .int p.quantity_in_stock)] ++
  (match p.data with
   | .electronics wy br => [("brand", .s br), ("warranty_years", .int wy)]
   | .grocery e => [("expiry_date", .date e.date)]
   | .clothing sz mat => [("size", .s sz), ("material", .s mat)]) ++
  [("type", .s p.className)]

/-- Impl B `Inventory.save_to_file`: the file holds the list of records. -/
def save_to_fileB (inv : Inventory) : List Item :=
  (list_all_products inv).map serialize_itemB

/-- The field names of an item. -/
def keysOf (it : Item) : List String :=
  it.map Prod.fst

/-- Python keyword-argument binding `Cls(**item)`: every expected parameter
must be supplied and every supplied key must be expected (`TypeError`
otherwise).  Items decoded from JSON objects cannot repeat a key. -/
def keysExactly (it : Item) (expected : List String) : Bool :=
  expected.all (fun k => hasKey it k) &&
    (keysOf it).all (fun k => expected.contains k)

/-- Impl B `Electronics(**item)`. -/
def kwargsElectronicsB (it : Item) : Except InvErr Product :=
  if keysExactly it ["product_id", "name", "price", "quantity", "brand", "warranty_years"] then
    match it.getStr "product_id", it.getStr "name", it.getNum "price",
          it.getInt "quantity", it.getStr "brand", it.getInt "warranty_years" with
    | some pid, some nm, some pr, some qty, some br, some wy =>
      .ok ⟨pid, nm, pr, qty, .electronics wy br⟩
    | _, _, _, _, _, _ => .error .InvalidProductData
  else .error .InvalidProductData

/-- Impl B `Grocery(**item)`: the expiry value goes through `strptime`. -/
def kwargsGroceryB (it : Item) : Except InvErr Product :=
  if keysExactly it ["product_id", "name", "price", "quantity", "expiry_date"] then
    match it.getStr "product_id", it.getStr "name", it.getNum "price",
          it.getInt "quantity", it.getDate "expiry_date" with
    | some pid, some nm, some pr, some qty, some ed =>
      .ok ⟨pid, nm, pr, qty, .grocery (DateTime.atMidnight ed)⟩
    | _, _, _, _, _ => .error .InvalidProductData
  else .error .InvalidProductData

/-- Impl B `Clothing(**item)`. -/
def kwargsClothingB (it : Item) : Except InvErr Product :=
  if keysExactly it ["product_id", "name", "price", "quantity", "size", "material"] then
    match it.getStr "product_id", it.getStr "name", it.getNum "price",
          it.getInt "quantity", it.getStr "size", it.getStr "material" with
    | some pid, some nm, some pr, some qty, some sz, some mat =>
      .ok ⟨pid, nm, pr, qty, .clothing sz mat⟩
    | _, _, _, _, _, _ => .error .InvalidProductData
  else .error .InvalidProductData

/-- Impl B's per-record step of `load_from_file`: `type_ = item.pop("type")`
(`KeyError` when absent), dispatch to the constructor call, unknown type
raises; every exception is wrapped into the invalid-data error. -/
def deserialize_itemB (it : Item) : Except InvErr Product :=
  match it.getStr "type" with
  | none => .error .InvalidProductData
  | some t =>
    if t == "Electronics" then kwargsElectronicsB (eraseKey it "type")
    else if t == "Grocery" then kwargsGroceryB (eraseKey it "type")
    else if t == "Clothing" then kwargsClothingB (eraseKey it "type")
    else .error .InvalidProductData

/-- Outcome of impl B's load: the in-memory state it leaves behind and the
error it raised, if any. -/
structure LoadB where
  state : Inventory
  error : Option InvErr
deriving DecidableEq, Repr

/-- The record loop of impl B's `load_from_file`, inserting each constructed
product under its own `_product_id`; an exception stops the loop with the
partially built dict left in place. -/
def loadItemsB : List Item → Inventory → LoadB
  | [], acc => ⟨acc, none⟩
  | it :: rest, acc =>
    match deserialize_itemB it with
    | .error _ => ⟨acc, some .InvalidProductData⟩
    | .ok p => loadItemsB rest (setKey acc p.product_id p)

/-- Impl B `Inventory.load_from_file`: `self._products = {}` first (the prior
in-memory state is discarded unconditionally), then the record loop. -/
def load_from_fileB (data : List Item) : LoadB :=
  loadItemsB data []

/-- Keys of an inventory. -/
def invKeys (inv : Inventory) : List String :=
  inv.map Prod.fst

/-- The implicit key-coherence invariant: every key of `self._products`
equals the `product_id` of the product stored under it. -/
abbrev KeyCoherent (inv : Inventory) : Prop :=
  ∀ e ∈ inv, e.1 = e.2.product_id

/-- A load source for impl A whose mapping keys agree with the embedded
`product_id` fields — true of every file impl A's `save_to_file` writes. -/
abbrev KeyCoherentSource (data : List (String × Item)) : Prop :=
  ∀ e ∈ data, Item.getStr e.2 "product_id" = some e.1

/-- The inventory states reachable from a fresh `Inventory()` through the
public operations, with impl A's load restricted to key-coherent sources
(impl B's load, including its failing runs, is unrestricted). -/
inductive Reachable : Inventory → Prop where
  | empty : Reachable []
  | add {inv p inv2} : Reachable inv → add_product inv p = .ok inv2 → Reachable inv2
  | remove {inv pid} : Reachable inv → Reachable (remove_product inv pid)
  | sellA {inv pid q inv2} : Reachable inv → sell_productA inv pid q = .ok inv2 → Reachable inv2
  | sellB {inv pid q inv2} : Reachable inv → sell_productB inv pid q = .ok inv2 → Reachable inv2
  | restockA {inv pid q} : Reachable inv → Reachable (restock_productA inv pid q)
  | restockB {inv pid q inv2} : Reachable inv → restock_productB inv pid q = .ok inv2 → Reachable inv2
  | prune {inv now} : Reachable inv → Reachable (remove_expired_products inv now).1
  | loadA {inv data inv2} : Reachable inv → KeyCoherentSource data →
      load_from_fileA data = .ok inv2 → Reachable inv2
  | loadB {inv data} : Reachable inv → Reachable (load_from_fileB data).state

/-- Fixture: an electronics product (one of each variant, as in the spec's
round-trip test sketch). -/
def phone : Product := ⟨"E1", "Phone", 500, 10, .electronics 2 "Acme"⟩

/-- Fixture: a grocery product whose expiry date 2023-01-01 has passed. -/
def milk : Product := ⟨"G1", "Milk", 5 / 2, 20, .grocery (DateTime.atMidnight ⟨2023, 1, 1⟩)⟩

/-- Fixture: a grocery product expiring far in the future. -/
def freshMilk : Product := ⟨"G2", "Cream", 3, 7, .grocery (DateTime.atMidnight ⟨2030, 1, 1⟩)⟩

/-- Fixture: a clothing product. -/
def shirt : Product := ⟨"C1", "Shirt", 20, 50, .clothing "M" "Cotton"⟩

/-- Fixture: an electronics product with an id absent from `demoInv`. -/
def phoneNew : Product := ⟨"E9", "Tablet", 300, 4, .electronics 1 "Acme"⟩

/-- Fixture inventory with one product of each variant. -/
def demoInv : Inventory := [("E1", phone), ("G1", milk), ("C1", shirt)]

/-- Fixture inventory mixing expired and fresh groceries with the others. -/
def mixedInv : Inventory :=
  [("E1", phone), ("G1", milk), ("G2", freshMilk), ("C1", shirt)]

/-- Fixture inventory holding only the expired grocery. -/
def staleInv : Inventory := [("G1", milk)]

/-- Fixture evaluation time: noon of 2024-06-01, after milk's expiry and
before freshMilk's. -/
def nowJune : DateTime := ⟨⟨2024, 6, 1⟩, 12, 30, 5⟩

/-- Fixture: a record impl B's load accepts (constructor keyword names). -/
def itemCam : Item :=
  [("type", .s "Electronics"), ("product_id", .s "N1"), ("name", .s "Cam"),
   ("price", .num 10), ("quantity", .int 5), ("brand", .s "Acme"),
   ("warranty_years", .int 1)]

/-- The product impl B's load builds from `itemCam`. -/
def camProduct : Product := ⟨"N1", "Cam", 10, 5, .electronics 1 "Acme"⟩

/-- Fixture: a record whose `type` names no known variant. -/
def itemFood : Item := [("type", .s "Food"), ("product_id", .s "B1")]

/-- Fixture: an in-memory state present before a failing load. -/
def priorInv : Inventory := [("OLD", shirt)]

/-- Fixture: a well-formed impl A record whose embedded `product_id` is
`"Y"`; filed in the source mapping under the key `"X"`. -/
def itemMismatch : Item :=
  [("type", .s "Clothing"), ("product_id", .s "Y"), ("name", .s "Hat"),
   ("price", .num 7), ("quantity_in_stock", .int 3), ("size", .s "S"),
   ("material", .s "Wool")]

/-- The product impl A's load builds from `itemMismatch`. -/
def hatProduct : Product := ⟨"Y", "Hat", 7, 3, .clothing "S" "Wool"⟩

end IMS

namespace IMS

/-- Selling never changes the product id. -/
theorem Product.sell_ok_id {p p2 : Product} {q : Int} (h : p.sell q = .ok p2) :
    p2.product_id = p.product_id := by
  unfold Product.sell at h
  split at h
  · exact absurd h (by simp)
  · injection h with h2
    rw [← h2]

/-- Restocking never changes the product id. -/
theorem Product.restock_id (p : Product) (q : Int) :
    (p.restock q).product_id = p.product_id := rfl

/-- A successful lookup returns a binding of the dict. -/
theorem lookupKey_mem {α : Type} {l : List (String × α)} {k : String} {v : α}
    (h : lookupKey l k = some v) : (k, v) ∈ l := by
  induction l with
  | nil => simp [lookupKey] at h
  | cons e rest ih =>
    obtain ⟨k2, v2⟩ := e
    unfold lookupKey at h
    split at h
    · rename_i hbeq
      injection h with h2
      have hk : k2 = k := eq_of_beq hbeq
      subst hk
      subst h2
      exact List.mem_cons_self _ _
    · exact List.mem_cons_of_mem _ (ih h)

/-- Assigning a fresh key appends the binding at the end of the dict. -/
theorem setKey_eq_append {α : Type} {l : List (String × α)} {k : String} (v : α)
    (h : hasKey l k = false) : setKey l k v = l ++ [(k, v)] := by
  induction l with
  | nil => rfl
  | cons e rest ih =>
    obtain ⟨k2, v2⟩ := e
    unfold hasKey lookupKey at h
    simp only [setKey]
    split
    · rename_i hbeq
      rw [if_pos hbeq] at h
      simp at h
    · rename_i hbeq
      rw [if_neg hbeq] at h
      rw [ih h]
      rfl

/-- Key coherence survives assignment of a matching binding. -/
theorem kc_setKey {inv : Inventory} {k : String} {v : Product}
    (hkc : KeyCoherent inv) (hv : v.product_id = k) :
    KeyCoherent (setKey inv k v) := by
  induction inv with
  | nil =>
    intro e he
    simp only [setKey, List.mem_singleton] at he
    rw [he, hv]
  | cons e2 rest ih =>
    obtain ⟨k2, v2⟩ := e2
    have hkc2 : KeyCoherent rest := fun e he => hkc e (List.mem_cons_of_mem _ he)
    simp only [setKey]
    split
    · rename_i hbeq
      intro e he
      rcases List.mem_cons.mp he with h1 | h2
      · rw [h1, hv]
        exact eq_of_beq hbeq
      · exact hkc e (List.mem_cons_of_mem _ h2)
    · intro e he
      rcases List.mem_cons.mp he with h1 | h2
      · rw [h1]
        exact hkc (k2, v2) (List.mem_cons_self _ _)
      · exact ih hkc2 e h2

/-- Key coherence survives deletion. -/
theorem kc_eraseKey {inv : Inventory} (k : String) (hkc : KeyCoherent inv) :
    KeyCoherent (eraseKey inv k) := by
  induction inv with
  | nil =>
    intro e he
    simp [eraseKey] at he
  | cons e2 rest ih =>
    obtain ⟨k2, v2⟩ := e2
    have hkc2 : KeyCoherent rest := fun e he => hkc e (List.mem_cons_of_mem _ he)
    simp only [eraseKey]
    split
    · exact hkc2
    · intro e he
      rcases List.mem_cons.mp he with h1 | h2
      · rw [h1]
        exact hkc (k2, v2) (List.mem_cons_self _ _)
      · exact ih hkc2 e h2

/-- Key coherence survives the deletion loop of the pruning operation. -/
theorem kc_foldl_erase {inv : Inventory} (ids : List String)
    (hkc : KeyCoherent inv) :
    KeyCoherent (ids.foldl (fun acc pid => eraseKey acc pid) inv) := by
  induction ids generalizing inv with
  | nil => exact hkc
  | cons i rest ih => exact ih (kc_eraseKey i hkc)

/-- Building a dict from coherent bindings yields a coherent dict. -/
theorem kc_foldl_setKey {l : List (String × Product)} {acc : Inventory}
    (hl : ∀ e ∈ l, e.1 = e.2.product_id) (hacc : KeyCoherent acc) :
    KeyCoherent (l.foldl (fun a e => setKey a e.1 e.2) acc) := by
  induction l generalizing acc with
  | nil => exact hacc
  | cons e rest ih =>
    exact ih (fun e2 he2 => hl e2 (List.mem_cons_of_mem _ he2))
      (kc_setKey hacc (hl e (List.mem_cons_self _ _)).symm)

/-- C4: for every product and non-negative quantity, `sell` fails with
`InsufficientStock` exactly when the quantity exceeds the stock — the raise
happens before any mutation, so the failing call returns no changed state —
and otherwise succeeds, decreasing only `quantity_in_stock` by the quantity;
in particular `sell(quantity_in_stock + 1)` always fails. -/
theorem C4_sell_insufficient_stock (p : Product) (q : Int) (hq : 0 ≤ q) :
    (p.sell q = .error .InsufficientStock ↔ p.quantity_in_stock < q) ∧
    (q ≤ p.quantity_in_stock →
      p.sell q = .ok { p with quantity_in_stock := p.quantity_in_stock - q }) ∧
    p.sell (p.quantity_in_stock + 1) = .error .InsufficientStock := by
  refine ⟨?_, ?_, ?_⟩
  · unfold Product.sell
    by_cases h : p.quantity_in_stock < q
    · rw [if_pos h]
      simp [h]
    · rw [if_neg h]
      simp [h]
  · intro hle
    unfold Product.sell
    rw [if_neg (by omega)]
  · unfold Product.sell
    rw [if_pos (by omega)]

/-- Witness for C4: the phone fixture with quantity 2. -/
theorem C4_sell_insufficient_stock_witness :
    (0 : Int) ≤ 2 ∧
    ((phone.sell 2 = .error .InsufficientStock ↔ phone.quantity_in_stock < 2) ∧
     (2 ≤ phone.quantity_in_stock →
       phone.sell 2 = .ok { phone with quantity_in_stock := phone.quantity_in_stock - 2 }) ∧
     phone.sell (phone.quantity_in_stock + 1) = .error .InsufficientStock) :=
  ⟨by decide, C4_sell_insufficient_stock phone 2 (by decide)⟩

/-- C7: selling a feasible quantity and restocking the same quantity
restores the product exactly. -/
theorem C7_sell_restock_inverse (p : Product) (q : Int) (h0 : 0 ≤ q)
    (hle : q ≤ p.quantity_in_stock) :
    (p.sell q).map (fun p2 => p2.restock q) = .ok p := by
  unfold Product.sell
  rw [if_neg (by omega)]
  show Except.ok (Product.restock { p with quantity_in_stock := p.quantity_in_stock - q } q) = .ok p
  unfold Product.restock
  obtain ⟨pid, nm, pr, qty, d⟩ := p
  simp only [Except.ok.injEq, Product.mk.injEq, true_and, and_true]
  omega

/-- Witness for C7: the shirt fixture, selling and restocking 12. -/
theorem C7_sell_restock_inverse_witness :
    (shirt.sell 12).map (fun p2 => p2.restock 12) = .ok shirt :=
  C7_sell_restock_inverse shirt 12 (by decide) (by decide)

/-- C5: `add_product` fails with `DuplicateProductID` when the id is bound —
rejecting before any write, so the store and the stored record are untouched
— and otherwise appends exactly the one new binding. -/
theorem C5_add_product_duplicate (inv : Inventory) (p : Product) :
    (hasKey inv p.product_id = true →
      add_product inv p = .error .DuplicateProductID) ∧
    (hasKey inv p.product_id = false →
      add_product inv p = .ok (inv ++ [(p.product_id, p)])) := by
  constructor
  · intro h
    unfold add_product
    rw [if_pos h]
  · intro h
    unfold add_product
    rw [if_neg (by simp [h]), setKey_eq_append p h]

/-- Witness for C5: re-adding the phone fails; adding a fresh id appends. -/
theorem C5_add_product_duplicate_witness :
    add_product demoInv phone = .error .DuplicateProductID ∧
    add_product demoInv phoneNew = .ok (demoInv ++ [("E9", phoneNew)]) :=
  ⟨(C5_add_product_duplicate demoInv phone).1 rfl,
   (C5_add_product_duplicate demoInv phoneNew).2 rfl⟩

/-- C8: the aggregate value is the sum of `price * quantity_in_stock` over
all bindings, and it is zero on the empty inventory.  Purity is inherent:
both functions are state-to-value maps returning no modified inventory. -/
theorem C8_total_inventory_value (inv : Inventory) :
    total_inventory_value [] = 0 ∧
    total_inventory_value inv =
      (inv.map (fun e => e.2.price * (e.2.quantity_in_stock : ℚ))).sum := by
  refine ⟨rfl, ?_⟩
  unfold total_inventory_value list_all_products
  rw [List.map_map]
  rfl

/-- C2 counterexample: impl A's `sell_product`/`restock_product` on an id
absent from the inventory return successfully without any error — not the
`ProductNotFound` failure the claim asserts for both implementations. -/
theorem C2_missing_id_silent_noop_implA :
    sell_productA demoInv "Z9" 1 = .ok demoInv ∧
    restock_productA demoInv "Z9" 1 = demoInv := ⟨rfl, rfl⟩

/-- C2 as amended: impl B fails with `ProductNotFound` on an absent id
(leaving the state untouched), while impl A silently no-ops; on a present id
both delegate to the product's `sell`/`restock`, propagating
`InsufficientStock` from `sell`. -/
theorem C2_lookup_failure_and_delegation (inv : Inventory) (pid : String) (q : Int) :
    (lookupKey inv pid = none →
      sell_productB inv pid q = .error .ProductNotFound ∧
      restock_productB inv pid q = .error .ProductNotFound ∧
      sell_productA inv pid q = .ok inv ∧
      restock_productA inv pid q = inv) ∧
    (∀ p, lookupKey inv pid = some p →
      sell_productA inv pid q = (p.sell q).map (fun p2 => setKey inv pid p2) ∧
      sell_productB inv pid q = (p.sell q).map (fun p2 => setKey inv pid p2) ∧
      restock_productA inv pid q = setKey inv pid (p.restock q) ∧
      restock_productB inv pid q = .ok (setKey inv pid (p.restock q))) := by
  constructor
  · intro h
    unfold sell_productA sell_productB restock_productA restock_productB
    rw [h]
    exact ⟨rfl, rfl, rfl, rfl⟩
  · intro p h
    have hA : sell_productA inv pid q =
        (match p.sell q with
         | .error e => .error e
         | .ok p2 => .ok (setKey inv pid p2)) := by
      unfold sell_productA
      rw [h]
    have hB : sell_productB inv pid q =
        (match p.sell q with
         | .error e => .error e
         | .ok p2 => .ok (setKey inv pid p2)) := by
      unfold sell_productB
      rw [h]
    have hrA : restock_productA inv pid q = setKey inv pid (p.restock q) := by
      unfold restock_productA
      rw [h]
    have hrB : restock_productB inv pid q = .ok (setKey inv pid (p.restock q)) := by
      unfold restock_productB
      rw [h]
    refine ⟨?_, ?_, hrA, hrB⟩
    · rw [hA]
      cases hs : p.sell q <;> rfl
    · rw [hB]
      cases hs : p.sell q <;> rfl

/-- Witness for C2: absent id "Z9" fails with `ProductNotFound` in impl B;
overselling the present phone propagates `InsufficientStock`. -/
theorem C2_lookup_failure_and_delegation_witness :
    sell_productB demoInv "Z9" 1 = .error .ProductNotFound ∧
    sell_productB demoInv "E1" 999 = .error .InsufficientStock := by
  constructor
  · exact ((C2_lookup_failure_and_delegation demoInv "Z9" 1).1 rfl).1
  · have h := ((C2_lookup_failure_and_delegation demoInv "E1" 999).2 phone rfl).2.1
    rw [h]
    rfl

/-- C1: saving and reloading the one-product-per-variant inventory.  In
impl B the keys written by `save_to_file` (the raw attribute names
`_product_id`, `_name`, `_price`, `_quantity_in_stock`) do not match the
constructor keyword names `load_from_file` passes, so the load of its own
save fails with the invalid-data error and an emptied store; impl A
round-trips the same inventory exactly. -/
theorem C1_roundtrip_divergence :
    load_from_fileB (save_to_fileB demoInv) = ⟨[], some .InvalidProductData⟩ ∧
    load_from_fileA (save_to_fileA demoInv) = .ok demoInv := ⟨rfl, rfl⟩

/-- C3: impl B's load of a source holding one valid record followed by one
of unknown type raises the invalid-data error but leaves the store holding
just the valid new record — neither the prior state nor the cleared state,
because `self._products = {}` runs before any validation and the insertion
loop stops midway. -/
theorem C3_load_failure_partial_state_implB :
    load_from_fileB [itemCam, itemFood] =
      ⟨[("N1", camProduct)], some .InvalidProductData⟩ ∧
    ([("N1", camProduct)] : Inventory) ≠ priorInv ∧
    ([("N1", camProduct)] : Inventory) ≠ ([] : Inventory) := by
  refine ⟨rfl, ?_, ?_⟩ <;> decide

/-- With unique keys, deleting a key filters its binding out. -/
theorem eraseKey_eq_filter {α : Type} {l : List (String × α)} (k : String)
    (h : (l.map Prod.fst).Nodup) :
    eraseKey l k = l.filter (fun e => !(e.1 == k)) := by
  induction l with
  | nil => rfl
  | cons e rest ih =>
    obtain ⟨k2, v2⟩ := e
    rw [List.map_cons, List.nodup_cons] at h
    simp only [eraseKey, List.filter_cons]
    by_cases hbeq : (k2 == k) = true
    · rw [if_pos hbeq, if_neg (by simp [hbeq])]
      have hk : k2 = k := eq_of_beq hbeq
      refine (List.filter_eq_self.mpr ?_).symm
      intro a ha
      have hmem : a.1 ∈ rest.map Prod.fst := List.mem_map_of_mem Prod.fst ha
      have h1 : a.1 ≠ k2 := fun hEq => h.1 (hEq ▸ hmem)
      have h2 : a.1 ≠ k := by rw [← hk]; exact h1
      simp [h2]
    · rw [if_neg hbeq, if_pos (by simp [hbeq])]
      rw [ih h.2]

/-- With unique keys, the deletion loop over a list of ids filters out
exactly the bindings whose key occurs in the list. -/
theorem foldl_eraseKey_eq_filter {α : Type} (ids : List String)
    {l : List (String × α)} (h : (l.map Prod.fst).Nodup) :
    ids.foldl (fun acc pid => eraseKey acc pid) l =
      l.filter (fun e => !(ids.contains e.1)) := by
  induction ids generalizing l with
  | nil =>
    simp only [List.foldl_nil]
    refine (List.filter_eq_self.mpr ?_).symm
    intro a ha
    simp
  | cons i rest ih =>
    simp only [List.foldl_cons]
    have hnd2 : ((eraseKey l i).map Prod.fst).Nodup := by
      rw [eraseKey_eq_filter i h]
      exact h.sublist ((List.filter_sublist l).map Prod.fst)
    rw [ih hnd2, eraseKey_eq_filter i h, List.filter_filter]
    refine List.filter_congr ?_
    intro a ha
    simp only [List.contains_cons, Bool.not_or]
    cases hb1 : (a.1 == i) <;> cases hb2 : rest.contains a.1 <;> simp [hb1, hb2]

/-- C6 counterexample: `remove_expired_products` returns `None` (here `()`)
in both a run that removes the stale grocery "G1" and a run that removes
nothing, so its return value reports neither a count nor a list of removed
ids; only the state change is observable. -/
theorem C6_no_removed_ids_report :
    (remove_expired_products staleInv nowJune).2 =
      (remove_expired_products [] nowJune).2 ∧
    expiredIds staleInv nowJune = ["G1"] ∧
    expiredIds [] nowJune = [] ∧
    (remove_expired_products staleInv nowJune).1 = [] := ⟨rfl, rfl, rfl, rfl⟩

/-- C6 as amended: with the dict's unique keys, pruning keeps exactly the
bindings that are not expired groceries — every Electronics, Clothing and
fresh Grocery binding survives unchanged and in order — but the operation
returns nothing; removed ids are observable only through the state. -/
theorem C6_remove_expired_exact (inv : Inventory) (now : DateTime)
    (hnd : (invKeys inv).Nodup) :
    (remove_expired_products inv now).1 =
      inv.filter (fun e => !(e.2.isinstance .grocery && e.2.is_expired now)) := by
  have hnd2 : (inv.map Prod.fst).Nodup := hnd
  show (expiredIds inv now).foldl (fun acc pid => eraseKey acc pid) inv =
      inv.filter (fun e => !(e.2.isinstance .grocery && e.2.is_expired now))
  rw [foldl_eraseKey_eq_filter _ hnd2]
  refine List.filter_congr ?_
  intro e he
  have hX : (expiredIds inv now).contains e.1 =
      (e.2.isinstance .grocery && e.2.is_expired now) := by
    rw [Bool.eq_iff_iff]
    constructor
    · intro hc
      have hm : e.1 ∈ expiredIds inv now := by simpa using hc
      unfold expiredIds at hm
      rcases List.mem_map.mp hm with ⟨e2, he2, hfst⟩
      rcases List.mem_filter.mp he2 with ⟨he2inv, hpred⟩
      have hee : e2 = e := List.inj_on_of_nodup_map hnd2 he2inv he hfst
      rw [← hee]
      exact hpred
    · intro hp
      have hm : e.1 ∈ expiredIds inv now := by
        unfold expiredIds
        exact List.mem_map_of_mem Prod.fst (List.mem_filter.mpr ⟨he, hp⟩)
      simpa using hm
  rw [hX]

/-- Witness for C6 on the mixed fixture at noon 2024-06-01: only the stale
milk goes; phone, fresh cream and shirt survive in order. -/
theorem C6_remove_expired_exact_witness :
    (remove_expired_products mixedInv nowJune).1 =
      [("E1", phone), ("G2", freshMilk), ("C1", shirt)] := by
  rw [C6_remove_expired_exact mixedInv nowJune (by decide)]
  rfl

/-- C9: impl B's `search_by_type` returns exactly the products whose class
name matches the tag case-insensitively, in iteration order; a tag naming no
variant yields the empty list without error, and likewise impl A's
class-argument form yields the empty list for a class with no instances. -/
theorem C9_search_by_type (inv : Inventory) (tag : String) :
    search_by_typeB inv tag =
      (list_all_products inv).filter (fun p => lower p.className == lower tag) ∧
    (lower tag ≠ "electronics" → lower tag ≠ "grocery" → lower tag ≠ "clothing" →
      search_by_typeB inv tag = []) ∧
    search_by_typeA inv .other = [] := by
  refine ⟨rfl, ?_, ?_⟩
  · intro h1 h2 h3
    unfold search_by_typeB
    refine List.filter_eq_nil_iff.mpr ?_
    intro p hp hbeq
    have hEq : lower p.className = lower tag := eq_of_beq hbeq
    obtain ⟨pid, nm, pr, qty, d⟩ := p
    cases d with
    | electronics wy br => exact h1 hEq.symm
    | grocery ed => exact h2 hEq.symm
    | clothing sz mat => exact h3 hEq.symm
  · unfold search_by_typeA
    refine List.filter_eq_nil_iff.mpr ?_
    intro p hp
    obtain ⟨pid, nm, pr, qty, d⟩ := p
    cases d <;> simp [Product.isinstance]

/-- Witness for C9: the unknown tag "food" and the no-instance class. -/
theorem C9_search_by_type_witness :
    search_by_typeB demoInv "food" = [] ∧ search_by_typeA demoInv .other = [] :=
  ⟨(C9_search_by_type demoInv "food").2.1 (by decide) (by decide) (by decide),
   (C9_search_by_type demoInv "food").2.2⟩

/-- The empty store is key-coherent. -/
theorem kc_nil : KeyCoherent ([] : Inventory) := by
  intro e he
  simp at he

/-- A product built by impl A's deserializer carries the record's embedded
`product_id`. -/
theorem deserialize_product_pid {it : Item} {p : Product}
    (h : deserialize_product it = .ok p) :
    it.getStr "product_id" = some p.product_id := by
  unfold deserialize_product at h
  split at h
  · exact absurd h (by simp)
  · split at h
    · split at h
      · rename_i hpid hnm hpr hqty hwy hbr
        injection h with h2
        rw [← h2]
        exact hpid
      · exact absurd h (by simp)
    · split at h
      · split at h
        · rename_i hpid hnm hpr hqty hed
          injection h with h2
          rw [← h2]
          exact hpid
        · exact absurd h (by simp)
      · split at h
        · split at h
          · rename_i hpid hnm hpr hqty hsz hmat
            injection h with h2
            rw [← h2]
            exact hpid
          · exact absurd h (by simp)
        · exact absurd h (by simp)

/-- In a successfully deserialized key-coherent source, every produced
binding is key-coherent. -/
theorem deserializeEntriesA_coherent {data : List (String × Item)}
    {l : List (String × Product)} (hsrc : KeyCoherentSource data)
    (h : deserializeEntriesA data = .ok l) :
    ∀ e ∈ l, e.1 = e.2.product_id := by
  induction data generalizing l with
  | nil =>
    unfold deserializeEntriesA at h
    injection h with h2
    rw [← h2]
    intro e he
    simp at he
  | cons d rest ih =>
    obtain ⟨pid, it⟩ := d
    unfold deserializeEntriesA at h
    split at h
    · exact absurd h (by simp)
    · rename_i p hp
      split at h
      · exact absurd h (by simp)
      · rename_i l2 hl2
        injection h with h2
        rw [← h2]
        intro e he
        rcases List.mem_cons.mp he with h1 | h1
        · rw [h1]
          have hg := hsrc (pid, it) (List.mem_cons_self _ _)
          rw [deserialize_product_pid hp] at hg
          injection hg with hg2
          exact hg2.symm
        · exact ih (fun e2 he2 => hsrc e2 (List.mem_cons_of_mem _ he2)) hl2 e h1

/-- Impl B's load loop inserts every product under its own id, so it
preserves key coherence — also on the partial state a failing run leaves. -/
theorem loadItemsB_coherent (data : List Item) {acc : Inventory}
    (hacc : KeyCoherent acc) : KeyCoherent (loadItemsB data acc).state := by
  induction data generalizing acc with
  | nil => exact hacc
  | cons it rest ih =>
    unfold loadItemsB
    split
    · exact hacc
    · exact ih (kc_setKey hacc rfl)

/-- C10 counterexample: impl A's load trusts the JSON mapping keys, so a
source filing a record with embedded id "Y" under the key "X" loads
successfully into a state violating key coherence — a lookup by "X" yields a
product bearing the id "Y". -/
theorem C10_load_key_mismatch_implA :
    load_from_fileA [("X", itemMismatch)] = .ok [("X", hatProduct)] ∧
    ¬ KeyCoherent [("X", hatProduct)] := ⟨rfl, by decide⟩

/-- C10 as amended: every inventory reachable from the empty store through
the public operations is key-coherent, provided each source handed to
impl A's load binds every record under its embedded `product_id` (as every
file written by impl A's save does); impl B's load needs no proviso. -/
theorem C10_key_coherence (inv : Inventory) (h : Reachable inv) :
    KeyCoherent inv := by
  induction h with
  | empty => exact kc_nil
  | add hR hEq ih =>
    unfold add_product at hEq
    split at hEq
    · exact absurd hEq (by simp)
    · injection hEq with h3
      rw [← h3]
      exact kc_setKey ih rfl
  | remove hR ih => exact kc_eraseKey _ ih
  | sellA hR hEq ih =>
    unfold sell_productA at hEq
    split at hEq
    · injection hEq with h3
      rw [← h3]
      exact ih
    · rename_i p hp
      split at hEq
      · exact absurd hEq (by simp)
      · rename_i p2 hp2
        injection hEq with h3
        rw [← h3]
        have hpidp : _ = p.product_id := ih _ (lookupKey_mem hp)
        exact kc_setKey ih ((Product.sell_ok_id hp2).trans hpidp.symm)
  | sellB hR hEq ih =>
    unfold sell_productB at hEq
    split at hEq
    · exact absurd hEq (by simp)
    · rename_i p hp
      split at hEq
      · exact absurd hEq (by simp)
      · rename_i p2 hp2
        injection hEq with h3
        rw [← h3]
        have hpidp : _ = p.product_id := ih _ (lookupKey_mem hp)
        exact kc_setKey ih ((Product.sell_ok_id hp2).trans hpidp.symm)
  | restockA hR ih =>
    rename_i inv2 pid q
    unfold restock_productA
    split
    · exact ih
    · rename_i p hp
      have hpidp : _ = p.product_id := ih _ (lookupKey_mem hp)
      exact kc_setKey ih ((Product.restock_id p q).trans hpidp.symm)
  | restockB hR hEq ih =>
    unfold restock_productB at hEq
    split at hEq
    · exact absurd hEq (by simp)
    · rename_i p hp
      injection hEq with h3
      rw [← h3]
      have hpidp : _ = p.product_id := ih _ (lookupKey_mem hp)
      exact kc_setKey ih ((Product.restock_id p _).trans hpidp.symm)
  | prune hR ih => exact kc_foldl_erase _ ih
  | loadA hR hsrc hEq ih =>
    unfold load_from_fileA at hEq
    split at hEq
    · exact absurd hEq (by simp)
    · rename_i l hl
      injection hEq with h3
      rw [← h3]
      exact kc_foldl_setKey (deserializeEntriesA_coherent hsrc hl) kc_nil
  | loadB hR ih => exact loadItemsB_coherent _ kc_nil

/-- Witness for C10: the singleton store reached by one `add_product`. -/
theorem C10_key_coherence_witness : KeyCoherent [("E1", phone)] :=
  C10_key_coherence [("E1", phone)]
    (@Reachable.add [] phone [("E1", phone)] Reachable.empty rfl)

/-- Impl A's deserializer inverts its serializer on every constructor-built
product (a grocery's stored datetime sits at midnight, so re-parsing its
date string reproduces it exactly). -/
theorem deserialize_serialize (p : Product) (hwf : p.wf = true) :
    deserialize_product (serialize_product p) = .ok p := by
  obtain ⟨pid, nm, pr, qty, d⟩ := p
  cases d with
  | electronics wy br => rfl
  | grocery e =>
    obtain ⟨ed, eh, em, es⟩ := e
    simp only [Product.wf, Bool.and_eq_true, beq_iff_eq] at hwf
    obtain ⟨⟨h1, h2⟩, h3⟩ := hwf
    subst h1
    subst h2
    subst h3
    rfl
  | clothing sz mat => rfl

/-- Deserializing everything impl A's save wrote gives back the bindings. -/
theorem deserializeEntriesA_save (inv : Inventory)
    (hwf : ∀ e ∈ inv, e.2.wf = true) :
    deserializeEntriesA (save_to_fileA inv) = .ok inv := by
  induction inv with
  | nil => rfl
  | cons e rest ih =>
    obtain ⟨pid, p⟩ := e
    have ih2 := ih (fun e2 he2 => hwf e2 (List.mem_cons_of_mem _ he2))
    simp only [save_to_fileA, List.map_cons]
    unfold deserializeEntriesA
    rw [deserialize_serialize p (hwf (pid, p) (List.mem_cons_self _ _))]
    simp only [save_to_fileA] at ih2
    rw [ih2]

/-- Looking a key up in a concatenation scans the left bindings first. -/
theorem lookupKey_append {α : Type} (l1 l2 : List (String × α)) (k : String) :
    lookupKey (l1 ++ l2) k =
      (match lookupKey l1 k with
       | some v => some v
       | none => lookupKey l2 k) := by
  induction l1 with
  | nil => rfl
  | cons e rest ih =>
    obtain ⟨k2, v2⟩ := e
    simp only [List.cons_append, lookupKey]
    split
    · rfl
    · exact ih

/-- Rebuilding a dict whose keys are unique and fresh for the accumulator
appends its bindings in order. -/
theorem foldl_setKey_append {l : List (String × Product)} :
    ∀ {acc : Inventory}, (l.map Prod.fst).Nodup →
      (∀ k ∈ l.map Prod.fst, hasKey acc k = false) →
      l.foldl (fun a e => setKey a e.1 e.2) acc = acc ++ l := by
  induction l with
  | nil =>
    intro acc h1 h2
    simp
  | cons e rest ih =>
    intro acc h1 h2
    obtain ⟨k, v⟩ := e
    rw [List.map_cons, List.nodup_cons] at h1
    simp only [List.foldl_cons]
    rw [setKey_eq_append v (h2 k (by simp))]
    rw [ih h1.2 ?fresh]
    · rw [List.append_assoc]
      rfl
    case fresh =>
      intro k2 hk2
      unfold hasKey
      rw [lookupKey_append]
      have hacc : hasKey acc k2 = false := h2 k2 (by simp [hk2])
      unfold hasKey at hacc
      cases hoc : lookupKey acc k2 with
      | some v2 =>
        rw [hoc] at hacc
        simp at hacc
      | none =>
        have hne : k ≠ k2 := fun hEq => h1.1 (by rw [hEq]; exact hk2)
        show (lookupKey [(k, v)] k2).isSome = false
        simp only [lookupKey]
        rw [if_neg (by simp [hne])]
        rfl

/-- Supplementary to C1: impl A's save/load round-trips every inventory of
constructor-built products with unique keys (every reachable inventory has
both properties), reproducing the full binding list field for field. -/
theorem roundtripA_general (inv : Inventory)
    (hwf : ∀ e ∈ inv, e.2.wf = true) (hnd : (invKeys inv).Nodup) :
    load_from_fileA (save_to_fileA inv) = .ok inv := by
  unfold load_from_fileA
  rw [deserializeEntriesA_save inv hwf]
  have h := @foldl_setKey_append inv ([] : Inventory) hnd (fun k _ => rfl)
  show Except.ok (inv.foldl (fun acc e => setKey acc e.1 e.2) []) = Except.ok inv
  rw [h]
  rfl

end IMS
